import Mathlib

/-
Shallow embedding of the command-line interpreter of the
Foxoring-test-code-for-Pi-Pico-2 repository.

Sources embedded:
  - cmdArduino.cpp : Cmd::handler (character-level input state machine),
    Cmd::parse (tokenizer and dispatcher), Cmd::add (registry).
  - commands.cpp : PrintNumArgError, CmdPrintHelp, CmdPrintStatus, CmdAmpl,
    FoxCopy, CallCopy, Str2Double.

Modelling conventions:
  - C strings are List Char with an implicit terminator at the end of the
    list; reading index i of a C string yields the character at i or the
    NUL terminator when i is past the end.
  - Serial output is modelled as a list of events, one event per print
    call; print and println are not distinguished (newlines are part of
    the event, not modelled separately).
  - Machine doubles are modelled as exact rationals; every numeric literal
    appearing in the claims (2.5, 1.5, 0, 2) is exactly representable in
    binary floating point, so the rational model agrees with the double
    semantics on all inputs these theorems evaluate.
  - MAX_MSG_SIZE, fox_len and call_len are defined outside the given
    sources (cmdArduino.h and the main sketch), so they are kept as
    explicit parameters of the model.
-/

/-- Character constant: the NUL terminator of C strings. -/
def chNUL : Char := Char.ofNat 0

/-- Character constant: backspace, the byte written as a backslash-b escape
in cmdArduino.cpp. -/
def chBS : Char := Char.ofNat 8

/-- Character constant: carriage return, the byte written as a backslash-r
escape in cmdArduino.cpp. -/
def chCR : Char := Char.ofNat 13

/-- Character constant: delete, byte value 127, accepted as backspace in
Cmd::handler. -/
def chDEL : Char := Char.ofNat 127

/-- State of the input state machine of cmdArduino.cpp: the static buffer
msg and the cursor msg_ptr, represented as the offset msg_ptr - msg. -/
structure CmdState where
  buf : List Char
  cursor : Nat
deriving DecidableEq

/-- Observable events produced by Cmd::handler: echoes of received bytes,
the carriage-return/newline echo, the "Command too long" notice, and the
handing of a completed line to Cmd::parse. -/
inductive IEvent
  | echo (c : Char)
  | crlf
  | tooLong
  | dispatchLine (line : List Char)
deriving DecidableEq

/-- The C string held in a buffer: the characters up to the first NUL. -/
def cLine (buf : List Char) : List Char := buf.takeWhile (fun c => !(c == chNUL))

/-- Embedding of Cmd::handler from cmdArduino.cpp, lines 143-182, for one
received character c.  cap is MAX_MSG_SIZE.  On carriage return the buffer
is NUL-terminated at the cursor and the line is dispatched; on backspace or
delete with the cursor past the start the byte is echoed, a space is
written at the cursor slot and the cursor moves back; any other byte is
echoed and stored, and reaching offset cap - 1 triggers the
"Command too long" recovery. -/
def Cmd.handler (cap : Nat) (s : CmdState) (c : Char) : CmdState × List IEvent :=
  if c = chCR then
    let buf' := s.buf.set s.cursor chNUL
    (⟨buf', 0⟩, [IEvent.crlf, IEvent.dispatchLine (cLine buf')])
  else if c = chBS ∨ c = chDEL then
    if s.cursor > 0 then
      (⟨s.buf.set s.cursor ' ', s.cursor - 1⟩, [IEvent.echo c])
    else
      (s, [])
  else
    let buf' := s.buf.set s.cursor c
    if s.cursor + 1 = cap - 1 then
      (⟨buf', 0⟩, [IEvent.echo c, IEvent.tooLong])
    else
      (⟨buf', s.cursor + 1⟩, [IEvent.echo c])

/-- Feeding a whole sequence of characters through Cmd::handler, collecting
the states and concatenating the emitted events (the loop in Cmd::poll). -/
def handlerRun (cap : Nat) (s : CmdState) (cs : List Char) : CmdState × List IEvent :=
  match cs with
  | [] => (s, [])
  | c :: rest =>
    ((handlerRun cap (Cmd.handler cap s c).1 rest).1,
      (Cmd.handler cap s c).2 ++ (handlerRun cap (Cmd.handler cap s c).1 rest).2)

/-- A byte that takes the default branch of Cmd::handler: neither carriage
return, nor backspace, nor delete. -/
def nonControl (c : Char) : Prop := c ≠ chCR ∧ c ≠ chBS ∧ c ≠ chDEL

instance (c : Char) : Decidable (nonControl c) := by
  unfold nonControl; infer_instance

/-- Recursion core of the strtok-based tokenization of Cmd::parse: skip
leading separators, cut the next token at the following separator, recurse
on the rest.  The fuel argument only bounds the recursion structurally; it
never runs out when it starts at the length of the list, because each
recursive call strictly shrinks the list. -/
def strtokGo (fuel : Nat) (l : List Char) : List (List Char) :=
  match fuel, l with
  | _, [] => []
  | 0, _ => []
  | f + 1, c :: cs =>
    if c = ' ' then strtokGo f cs
    else (c :: cs.takeWhile (fun d => !(d == ' '))) ::
      strtokGo f (cs.dropWhile (fun d => !(d == ' ')))

/-- Embedding of the strtok-based tokenization in Cmd::parse, lines
103-107: split on the space character, with runs of spaces acting as one
separator and no empty tokens ever produced (strtok returns NULL, not an
empty string, when only separators remain). -/
def strtokAll (l : List Char) : List (List Char) := strtokGo l.length l

/-- Indices written by the argv-filling do-while loop of Cmd::parse, lines
104-107, from the state where index i is written next: the loop writes argv
at index i and continues while i is below 30 and the token just written was
not NULL (a token with index i exists).  The fuel argument only bounds the
recursion structurally; starting it at 30 it never runs out, because the
loop guard stops the recursion at index 30. -/
def argvLoopGo (toks : List (List Char)) (fuel i : Nat) : List Nat :=
  match fuel with
  | 0 => [i]
  | f + 1 => i :: (if i < 30 ∧ i < toks.length then argvLoopGo toks f (i + 1) else [])

/-- All indices of the local 30-element array argv written by Cmd::parse
for a given token list: the initial strtok result is stored at index 0 and
the do-while loop then writes from index 1 on. -/
def argvWrites (toks : List (List Char)) : List Nat := 0 :: argvLoopGo toks 30 1

/-- A command line consisting of 30 space-separated one-character tokens. -/
def line30 : List Char := List.intercalate [' '] (List.replicate 30 ['a'])

/-- Command-table entry of cmdArduino.h: a command name and its handler
function, the latter represented by an opaque identifier; the next pointers
of the singly linked list are represented by list structure. -/
structure cmd_t where
  cmd : List Char
  func : Nat
deriving DecidableEq

/-- Embedding of Cmd::add from cmdArduino.cpp, lines 232-251: allocate an
entry holding a copy of the name and the handler, and prepend it to the
list (the new entry's next pointer is the old head). -/
def Cmd.add (tbl : List cmd_t) (name : List Char) (func : Nat) : List cmd_t :=
  ⟨name, func⟩ :: tbl

/-- Observable events produced by Cmd::parse: invocation of a handler with
its argument count and argument vector, the "Command not recognized" notice
naming the offending token, and the prompt redisplay. -/
inductive PEvent
  | call (func : Nat) (argc : Nat) (argv : List (List Char))
  | unrecognized (tok : List Char)
  | prompt
deriving DecidableEq

/-- Undefined behaviour reached by Cmd::parse: passing the NULL pointer
returned by strtok to strcmp or strlen. -/
inductive CmdErr
  | nullDeref
deriving DecidableEq

/-- Embedding of Cmd::parse from cmdArduino.cpp, lines 92-134: tokenize the
line, look the first token up in the command table (first match wins,
scanning from the head of the list), invoke the matching handler and
redisplay the prompt; otherwise report an unrecognized non-empty command
name and redisplay the prompt.  When the line holds no token at all,
strtok leaves argv[0] equal to NULL and both the strcmp in the lookup loop
and the strlen guard dereference it: this undefined behaviour is the
nullDeref error outcome. -/
def Cmd.parse (tbl : List cmd_t) (line : List Char) : Except CmdErr (List PEvent) :=
  let toks := strtokAll line
  let argc := if toks.length = 0 then 1 else min toks.length 30
  let argv := toks.take 30
  match toks.head? with
  | none => Except.error CmdErr.nullDeref
  | some t0 =>
    match tbl.find? (fun e => decide (e.cmd = t0)) with
    | some e => Except.ok [PEvent.call e.func argc argv, PEvent.prompt]
    | none =>
      if t0.length > 0 then Except.ok [PEvent.unrecognized t0, PEvent.prompt]
      else Except.ok [PEvent.prompt]

/-- Observable events produced by the command handlers of commands.cpp:
serial text output (one event per print call), the fixed help and status
text blocks, and the calls made on the rf_synth collaborator. -/
inductive CEv
  | out (s : String)
  | outCStr (s : List Char)
  | printHelpBody
  | printStatusBody
  | printAmplitude
  | setAmplitude (v : ℚ)
  | applySettings
deriving DecidableEq

/-- Embedding of PrintNumArgError from commands.cpp, lines 469-482: the
expected count is first decremented so that only proper arguments are
counted, then the message naming the command, the expected count (with a
plural s unless that count is 1) and the received count argc - 1 is
printed.  Handlers are only ever invoked by Cmd::parse with argc at least
1, so the natural-number subtraction agrees with the C int arithmetic. -/
def PrintNumArgError (argc : Nat) (argv0 : List Char) (expectedArgc : Nat) : List CEv :=
  let e := expectedArgc - 1
  [CEv.out "#Error: ", CEv.outCStr argv0, CEv.out " requires ", CEv.out (toString e),
    CEv.out " argument"] ++
  (if e ≠ 1 then [CEv.out "s"] else []) ++
  [CEv.out ". Received ", CEv.out (toString (argc - 1)), CEv.out "."]

/-- Embedding of CmdPrintHelp from commands.cpp, lines 47-84: exactly one
token (the command name alone) is required; on any other count the
standard argument-count error is printed and nothing else happens; the
fixed help text block is abstracted as one event. -/
def CmdPrintHelp (argc : Nat) (argv : List (List Char)) : List CEv :=
  if argc ≠ 1 then PrintNumArgError argc (argv.getD 0 []) 1
  else [CEv.printHelpBody]

/-- Embedding of CmdPrintStatus from commands.cpp, lines 131-139: exactly
one token is required; on any other count the standard argument-count
error is printed and nothing else happens; the PrintStatus body is
abstracted as one event. -/
def CmdPrintStatus (argc : Nat) (argv : List (List Char)) : List CEv :=
  if argc ≠ 1 then PrintNumArgError argc (argv.getD 0 []) 1
  else [CEv.printStatusBody]

/-- Value of a list of decimal digit characters. -/
def digitsVal (ds : List Char) : Nat := ds.foldl (fun a c => 10 * a + (c.toNat - 48)) 0

/-- Embedding of Str2Double from commands.cpp (strtod with base-10 input),
restricted to the unsigned decimal forms the claims evaluate: an integer
part, optionally followed by a point and a fraction part.  Doubles are
modelled as exact rationals; the values these theorems evaluate (2.5 and
1.5) are exactly representable in binary floating point, so the model
agrees with the double semantics there. -/
def Str2Double (s : List Char) : ℚ :=
  let ip := s.takeWhile Char.isDigit
  let rest := s.drop ip.length
  match rest with
  | '.' :: fr0 =>
    let fr := fr0.takeWhile Char.isDigit
    (digitsVal ip : ℚ) + (digitsVal fr : ℚ) / (10 : ℚ) ^ fr.length
  | _ => (digitsVal ip : ℚ)

/-- State of the rf_synth collaborator visible to CmdAmpl: the amplitude
setting. -/
structure SynthSt where
  amplitude : ℚ
deriving DecidableEq

/-- Embedding of CmdAmpl from commands.cpp, lines 296-314: with no
argument the current amplitude is printed; with more than one argument the
arity error is printed; otherwise the argument is parsed and, when it lies
in the closed range 0 to 2, the amplitude is set and apply_settings is
called, else the rejection notice is printed and nothing is changed. -/
def CmdAmpl (argc : Nat) (argv : List (List Char)) (st : SynthSt) : SynthSt × List CEv :=
  if argc = 1 then (st, [CEv.printAmplitude])
  else if 2 < argc then (st, PrintNumArgError argc (argv.getD 0 []) 2)
  else
    let v := Str2Double (argv.getD 1 [])
    if 0 ≤ v ∧ v ≤ 2 then
      ({ st with amplitude := v }, [CEv.setAmplitude v, CEv.applySettings])
    else
      (st, [CEv.out "Invalid amplitude value"])

/-- Reading index i of a C string: the character stored there, or the NUL
terminator when i is the position just past the content. -/
def cStrGet (s : List Char) (i : Nat) : Char := s.getD i chNUL

/-- Indices written by the copy loop shared by FoxCopy and CallCopy
(commands.cpp, lines 180-189 and 248-257): for ii from 0 while ii is at
most len, write destination index ii, and stop after copying the source's
NUL terminator.  The fuel argument only bounds the recursion structurally;
starting it above len + 1 it never runs out, because the loop guard stops
the recursion past index len. -/
def copyLoopGo (len : Nat) (str : List Char) (fuel i : Nat) : List Nat :=
  match fuel with
  | 0 => []
  | f + 1 =>
    if i ≤ len then
      i :: (if cStrGet str i = chNUL then [] else copyLoopGo len str f (i + 1))
    else []

/-- All destination indices written by FoxCopy for a given source string:
the copy-loop writes followed by the final terminator write at index
fox_len - 1. -/
def FoxCopyWrites (fox_len : Nat) (str : List Char) : List Nat :=
  copyLoopGo fox_len str (fox_len + 2) 0 ++ [fox_len - 1]

/-- All destination indices written by CallCopy for a given source string:
the copy-loop writes followed by the final terminator write at index
call_len - 1. -/
def CallCopyWrites (call_len : Nat) (str : List Char) : List Nat :=
  copyLoopGo call_len str (call_len + 2) 0 ++ [call_len - 1]

/-- Embedding of FoxCopy from commands.cpp, lines 180-189: perform the copy
loop's writes on the destination in order, then write the NUL terminator at
index fox_len - 1. -/
def FoxCopy (fox_len : Nat) (str dest : List Char) : List Char :=
  ((copyLoopGo fox_len str (fox_len + 2) 0).foldl
    (fun d i => d.set i (cStrGet str i)) dest).set (fox_len - 1) chNUL

/-- Embedding of CallCopy from commands.cpp, lines 248-257: perform the
copy loop's writes on the destination in order, then write the NUL
terminator at index call_len - 1. -/
def CallCopy (call_len : Nat) (str dest : List Char) : List Char :=
  ((copyLoopGo call_len str (call_len + 2) 0).foldl
    (fun d i => d.set i (cStrGet str i)) dest).set (call_len - 1) chNUL

/-- One-step unfolding of handlerRun on a cons cell. -/
theorem handlerRun_cons (cap : Nat) (s : CmdState) (c : Char) (cs : List Char) :
    handlerRun cap s (c :: cs) =
      ((handlerRun cap (Cmd.handler cap s c).1 cs).1,
        (Cmd.handler cap s c).2 ++ (handlerRun cap (Cmd.handler cap s c).1 cs).2) := rfl

-- ===== Claims C1 and C9: backspace behaviour =====

/-- C1 (counterexample): the claim states that backspace overwrites the
character immediately before the cursor with a space.  In the state with
buffer "abx" and cursor 2, the character immediately before the cursor is
the character b at index 1; after feeding a backspace the code leaves b in
place (the space is written at index 2, the cursor slot, instead). -/
theorem C1_counterexample :
    ¬ ((Cmd.handler 10 ⟨['a', 'b', 'x'], 2⟩ chBS).1.buf.getD 1 'z' = ' ') := by
  decide

/-- C1 (amended): for every state whose cursor is past the buffer start,
feeding backspace or delete echoes the received control byte, writes a
space at the cursor slot itself (one past the last entered character,
leaving the character immediately before the cursor untouched), and moves
the cursor back by exactly one. -/
theorem C1_backspace_writes_at_cursor (cap : Nat) (s : CmdState) (c : Char)
    (hc : c = chBS ∨ c = chDEL) (hp : 0 < s.cursor) :
    Cmd.handler cap s c = (⟨s.buf.set s.cursor ' ', s.cursor - 1⟩, [IEvent.echo c]) := by
  have hcr : ¬ c = chCR := by
    rcases hc with h | h <;> subst h <;> decide
  unfold Cmd.handler
  rw [if_neg hcr, if_pos hc, if_pos hp]

/-- C1 (witness): the amended theorem evaluated at the concrete state with
buffer "abx" and cursor 2 and the backspace byte. -/
theorem C1_witness :
    (chBS = chBS ∨ chBS = chDEL) ∧ 0 < (2 : Nat) ∧
    Cmd.handler 10 ⟨['a', 'b', 'x'], 2⟩ chBS =
      (⟨['a', 'b', ' '], 1⟩, [IEvent.echo chBS]) :=
  ⟨Or.inl rfl, by decide, by
    have h := C1_backspace_writes_at_cursor 10 ⟨['a', 'b', 'x'], 2⟩ chBS
      (Or.inl rfl) (by decide)
    simpa using h⟩

/-- C9: for every state whose cursor is at the buffer start, feeding
backspace or delete is a no-op: the state is unchanged and nothing is
echoed. -/
theorem C9_backspace_at_start_noop (cap : Nat) (s : CmdState) (c : Char)
    (hc : c = chBS ∨ c = chDEL) (hz : s.cursor = 0) :
    Cmd.handler cap s c = (s, []) := by
  have hcr : ¬ c = chCR := by
    rcases hc with h | h <;> subst h <;> decide
  unfold Cmd.handler
  rw [if_neg hcr, if_pos hc, if_neg (by omega)]

/-- C9 (witness): the no-op theorem evaluated at a concrete state with
cursor 0 and the delete byte. -/
theorem C9_witness :
    (chDEL = chBS ∨ chDEL = chDEL) ∧ (0 : Nat) = 0 ∧
    Cmd.handler 10 ⟨['a', 'b', 'x'], 0⟩ chDEL = (⟨['a', 'b', 'x'], 0⟩, []) :=
  ⟨Or.inr rfl, rfl,
    C9_backspace_at_start_noop 10 ⟨['a', 'b', 'x'], 0⟩ chDEL (Or.inr rfl) rfl⟩

-- ===== Claim C2: overflow recovery =====

/-- Unfolding of Cmd::handler on a non-control byte: the byte is echoed and
stored at the cursor; reaching offset cap - 1 emits the overflow notice and
resets the cursor. -/
theorem handler_default (cap : Nat) (s : CmdState) (c : Char) (h : nonControl c) :
    Cmd.handler cap s c =
      if s.cursor + 1 = cap - 1 then
        (⟨s.buf.set s.cursor c, 0⟩, [IEvent.echo c, IEvent.tooLong])
      else
        (⟨s.buf.set s.cursor c, s.cursor + 1⟩, [IEvent.echo c]) := by
  obtain ⟨h1, h2, h3⟩ := h
  unfold Cmd.handler
  rw [if_neg h1, if_neg (not_or.mpr ⟨h2, h3⟩)]

/-- Splitting a run of Cmd::handler over an appended input sequence. -/
theorem handlerRun_append (cap : Nat) (s : CmdState) (xs ys : List Char) :
    handlerRun cap s (xs ++ ys) =
      ((handlerRun cap (handlerRun cap s xs).1 ys).1,
        (handlerRun cap s xs).2 ++ (handlerRun cap (handlerRun cap s xs).1 ys).2) := by
  induction xs generalizing s with
  | nil => simp [handlerRun]
  | cons c rest ih =>
    simp only [List.cons_append, handlerRun_cons]
    rw [ih]
    simp [List.append_assoc]

/-- Feeding non-control bytes that exactly fill the buffer up to offset
cap - 1: every byte is echoed, the last one triggers the overflow notice,
and the cursor ends at the buffer start. -/
theorem handlerRun_fill (cs : List Char) : ∀ (cap p : Nat) (buf : List Char),
    (∀ c ∈ cs, nonControl c) → p + cs.length = cap - 1 → cs ≠ [] →
    ∃ buf', handlerRun cap ⟨buf, p⟩ cs =
      (⟨buf', 0⟩, cs.map IEvent.echo ++ [IEvent.tooLong]) := by
  induction cs with
  | nil => intro cap p buf _ _ hne; exact absurd rfl hne
  | cons c rest ih =>
    intro cap p buf hnc hlen _
    have hc : nonControl c := hnc c (List.mem_cons_self c rest)
    rcases rest with _ | ⟨d, rest'⟩
    · refine ⟨buf.set p c, ?_⟩
      have hp : p + 1 = cap - 1 := by simpa using hlen
      have step : Cmd.handler cap ⟨buf, p⟩ c =
          (⟨buf.set p c, 0⟩, [IEvent.echo c, IEvent.tooLong]) := by
        rw [handler_default cap ⟨buf, p⟩ c hc]
        simp [hp]
      rw [handlerRun_cons, step]
      simp [handlerRun]
    · have hp : ¬ (p + 1 = cap - 1) := by
        simp only [List.length_cons] at hlen; omega
      have hrest : ∀ e ∈ d :: rest', nonControl e := by
        intro e he; exact hnc e (List.mem_cons_of_mem c he)
      have hlen' : (p + 1) + (d :: rest').length = cap - 1 := by
        simp only [List.length_cons] at hlen ⊢; omega
      obtain ⟨buf', hb⟩ := ih cap (p + 1) (buf.set p c) hrest hlen' (by simp)
      refine ⟨buf', ?_⟩
      have step : Cmd.handler cap ⟨buf, p⟩ c =
          (⟨buf.set p c, p + 1⟩, [IEvent.echo c]) := by
        rw [handler_default cap ⟨buf, p⟩ c hc]
        simp [hp]
      rw [handlerRun_cons, step]
      simp [hb]

/-- C2 (counterexample): with capacity 5, feeding capacity - 1 = 4
non-control bytes followed by one more leaves the cursor at offset 1, not
reset to the buffer start as the claim states for this scenario (the
overflow recovery fires already at the fourth byte; the fifth byte starts a
fresh line). -/
theorem C2_counterexample :
    (handlerRun 5 ⟨List.replicate 5 chNUL, 0⟩ (List.replicate 5 'a')).1.cursor ≠ 0 := by
  decide

/-- C2 (amended): starting from an empty line, feeding capacity - 1
non-control bytes triggers the overflow recovery at the last of them (the
"command too long" notice is emitted and the cursor is reset to the buffer
start, with no line dispatched); the one further non-control byte is then
stored as the first character of a fresh line, leaving the cursor at 1. -/
theorem C2_overflow_recovery (cap : Nat) (buf cs : List Char) (d : Char)
    (hcap : 3 ≤ cap) (hlen : cs.length = cap - 1)
    (hcs : ∀ c ∈ cs, nonControl c) (hd : nonControl d) :
    (∃ buf', handlerRun cap ⟨buf, 0⟩ (cs ++ [d]) =
      (⟨buf', 1⟩, cs.map IEvent.echo ++ [IEvent.tooLong, IEvent.echo d])) ∧
    ∀ l, IEvent.dispatchLine l ∉ (handlerRun cap ⟨buf, 0⟩ (cs ++ [d])).2 := by
  have hne : cs ≠ [] := by
    intro h; rw [h] at hlen; simp at hlen; omega
  obtain ⟨buf1, h1⟩ := handlerRun_fill cs cap 0 buf hcs (by simpa using hlen) hne
  have hd1 : ¬ ((0 : Nat) + 1 = cap - 1) := by omega
  have hfin : handlerRun cap ⟨buf, 0⟩ (cs ++ [d]) =
      (⟨buf1.set 0 d, 1⟩, cs.map IEvent.echo ++ [IEvent.tooLong, IEvent.echo d]) := by
    rw [handlerRun_append, h1]
    simp [handlerRun, handler_default cap ⟨buf1, 0⟩ d hd, hd1]
  refine ⟨⟨buf1.set 0 d, hfin⟩, ?_⟩
  intro l
  rw [hfin]
  simp

/-- C2 (witness): the amended theorem evaluated at capacity 5 with four
bytes a and a fifth byte b. -/
theorem C2_witness :
    (3 ≤ 5 ∧ (List.replicate 4 'a').length = 5 - 1 ∧
      (∀ c ∈ List.replicate 4 'a', nonControl c) ∧ nonControl 'b') ∧
    ((∃ buf', handlerRun 5 ⟨List.replicate 5 chNUL, 0⟩ (List.replicate 4 'a' ++ ['b']) =
      (⟨buf', 1⟩, (List.replicate 4 'a').map IEvent.echo ++ [IEvent.tooLong, IEvent.echo 'b'])) ∧
    ∀ l, IEvent.dispatchLine l ∉
      (handlerRun 5 ⟨List.replicate 5 chNUL, 0⟩ (List.replicate 4 'a' ++ ['b'])).2) :=
  ⟨⟨by decide, by decide, by decide, by decide⟩,
    C2_overflow_recovery 5 (List.replicate 5 chNUL) (List.replicate 4 'a') 'b'
      (by decide) (by decide) (by decide) (by decide)⟩

-- ===== Claims C3, C4, C5: tokenizer, argv bounds, registry and dispatch =====

/-- Tokenizing a nonempty line that contains no separator yields exactly
that line as its single token. -/
theorem strtokAll_single (l : List Char) (hl : l ≠ []) (hsp : ∀ c ∈ l, c ≠ ' ') :
    strtokAll l = [l] := by
  rcases l with _ | ⟨c, cs⟩
  · exact absurd rfl hl
  · have hc : c ≠ ' ' := hsp c (List.mem_cons_self c cs)
    have ht : cs.takeWhile (fun d => !(d == ' ')) = cs :=
      List.takeWhile_eq_self_iff.mpr
        (by intro a ha; simpa using hsp a (List.mem_cons_of_mem c ha))
    have hd : cs.dropWhile (fun d => !(d == ' ')) = [] := by
      rw [List.dropWhile_eq_nil_iff]
      intro a ha; simpa using hsp a (List.mem_cons_of_mem c ha)
    simp [strtokAll, strtokGo, hc, ht, hd]

/-- C3: tokenizing the empty completed line yields no token at all (strtok
returns NULL rather than an empty string), and Cmd::parse then passes that
NULL to strcmp (when the command table is nonempty) or to strlen (when it
is empty): a null-pointer dereference, not the claimed quiet redisplay of
the prompt with an empty token 0. -/
theorem C3_empty_line_null_token :
    strtokAll [] = ([] : List (List Char)) ∧
    ∀ tbl : List cmd_t, Cmd.parse tbl [] = Except.error CmdErr.nullDeref :=
  ⟨rfl, fun _ => rfl⟩

/-- C4: on a line of 30 space-separated tokens, the argv-filling loop of
Cmd::parse writes slot index 30 — the 31st slot of the 30-element argv
array — contradicting the claim that no slot with index greater than 29 is
ever written. -/
theorem C4_argv_overrun :
    strtokAll line30 = List.replicate 30 ['a'] ∧
    30 ∈ argvWrites (strtokAll line30) ∧
    ∃ j ∈ argvWrites (strtokAll line30), 29 < j :=
  ⟨by decide, by decide, 30, by decide, by decide⟩

/-- C5: Cmd::add prepends the new entry, lookup scans from the head and
invokes the handler of the first entry whose name equals token 0, so the
most recently registered entry wins on name collisions; in particular,
after registering A then B with distinct names, dispatching the line A
invokes only the handler of A (one call event, carrying A's handler). -/
theorem C5_prepend_first_match (tbl : List cmd_t) (nA nB : List Char) (iA iB i1 i2 : Nat)
    (hAB : nA ≠ nB) (hne : nA ≠ []) (hsp : ∀ c ∈ nA, c ≠ ' ') :
    Cmd.add tbl nA iA = ⟨nA, iA⟩ :: tbl ∧
    Cmd.parse (Cmd.add (Cmd.add [] nA iA) nB iB) nA =
      Except.ok [PEvent.call iA 1 [nA], PEvent.prompt] ∧
    Cmd.parse (Cmd.add (Cmd.add [] nA i1) nA i2) nA =
      Except.ok [PEvent.call i2 1 [nA], PEvent.prompt] := by
  have htok : strtokAll nA = [nA] := strtokAll_single nA hne hsp
  refine ⟨rfl, ?_, ?_⟩
  · simp [Cmd.parse, Cmd.add, htok, List.find?, Ne.symm hAB]
  · simp [Cmd.parse, Cmd.add, htok, List.find?]

/-- C5 (witness): the registry theorem evaluated at the names a and b with
handler identifiers 0, 1, 2, 3. -/
theorem C5_witness :
    ((['a'] : List Char) ≠ ['b'] ∧ (['a'] : List Char) ≠ [] ∧
      ∀ c ∈ (['a'] : List Char), c ≠ ' ') ∧
    (Cmd.add [] ['a'] 0 = [⟨['a'], 0⟩] ∧
      Cmd.parse (Cmd.add (Cmd.add [] ['a'] 0) ['b'] 1) ['a'] =
        Except.ok [PEvent.call 0 1 [['a']], PEvent.prompt] ∧
      Cmd.parse (Cmd.add (Cmd.add [] ['a'] 2) ['a'] 3) ['a'] =
        Except.ok [PEvent.call 3 1 [['a']], PEvent.prompt]) :=
  ⟨⟨by decide, by decide, by decide⟩,
    C5_prepend_first_match [] ['a'] ['b'] 0 1 2 3 (by decide) (by decide) (by decide)⟩

-- ===== Claims C6, C7: amplitude command =====

/-- C6: dispatching the line "ampl 2.5" reaches CmdAmpl with argument count
2 and the value token 2.5, which is outside the valid range 0 to 2: the
amplitude is left unchanged, no setter and no apply_settings call is made
on the collaborator, and the rejection notice is printed. -/
theorem C6_ampl_out_of_range_rejected (st : SynthSt) :
    CmdAmpl 2 [['a', 'm', 'p', 'l'], ['2', '.', '5']] st =
      (st, [CEv.out "Invalid amplitude value"]) ∧
    Cmd.parse (Cmd.add [] ['a', 'm', 'p', 'l'] 7) ['a', 'm', 'p', 'l', ' ', '2', '.', '5'] =
      Except.ok [PEvent.call 7 2 [['a', 'm', 'p', 'l'], ['2', '.', '5']], PEvent.prompt] ∧
    (∀ v, CEv.setAmplitude v ∉ (CmdAmpl 2 [['a', 'm', 'p', 'l'], ['2', '.', '5']] st).2) ∧
    CEv.applySettings ∉ (CmdAmpl 2 [['a', 'm', 'p', 'l'], ['2', '.', '5']] st).2 := by
  have hv : Str2Double ['2', '.', '5'] = 5 / 2 := by
    have e1 : Str2Double ['2', '.', '5'] =
        (digitsVal ['2'] : ℚ) + (digitsVal ['5'] : ℚ) / (10 : ℚ) ^ (1 : Nat) := rfl
    rw [e1, show digitsVal ['2'] = 2 from by decide, show digitsVal ['5'] = 5 from by decide]
    norm_num
  have h : CmdAmpl 2 [['a', 'm', 'p', 'l'], ['2', '.', '5']] st =
      (st, [CEv.out "Invalid amplitude value"]) := by
    simp only [CmdAmpl, List.getD_cons_succ, List.getD_cons_zero, hv]
    norm_num
  refine ⟨h, rfl, ?_, ?_⟩
  · intro v
    rw [h]
    simp
  · rw [h]
    simp

/-- C7: dispatching the line "ampl 1.5" reaches CmdAmpl with argument count
2 and the value token 1.5, inside the valid range: the amplitude is set to
3/2 and apply_settings is called exactly once. -/
theorem C7_ampl_in_range_applied (st : SynthSt) :
    CmdAmpl 2 [['a', 'm', 'p', 'l'], ['1', '.', '5']] st =
      (⟨3 / 2⟩, [CEv.setAmplitude (3 / 2), CEv.applySettings]) ∧
    Cmd.parse (Cmd.add [] ['a', 'm', 'p', 'l'] 7) ['a', 'm', 'p', 'l', ' ', '1', '.', '5'] =
      Except.ok [PEvent.call 7 2 [['a', 'm', 'p', 'l'], ['1', '.', '5']], PEvent.prompt] ∧
    (CmdAmpl 2 [['a', 'm', 'p', 'l'], ['1', '.', '5']] st).2.count CEv.applySettings = 1 := by
  obtain ⟨a⟩ := st
  have hv : Str2Double ['1', '.', '5'] = 3 / 2 := by
    have e1 : Str2Double ['1', '.', '5'] =
        (digitsVal ['1'] : ℚ) + (digitsVal ['5'] : ℚ) / (10 : ℚ) ^ (1 : Nat) := rfl
    rw [e1, show digitsVal ['1'] = 1 from by decide, show digitsVal ['5'] = 5 from by decide]
    norm_num
  have h : CmdAmpl 2 [['a', 'm', 'p', 'l'], ['1', '.', '5']] ⟨a⟩ =
      (⟨3 / 2⟩, [CEv.setAmplitude (3 / 2), CEv.applySettings]) := by
    simp only [CmdAmpl, List.getD_cons_succ, List.getD_cons_zero, hv]
    norm_num
  refine ⟨h, rfl, ?_⟩
  rw [h]
  rfl

-- ===== Claim C8: fixed-arity argument-count guard =====

/-- C8: invoking a fixed-arity handler (help or stat, both requiring
exactly the command name) with any other argument count prints exactly the
standard message naming the command, the required proper-argument count 0
and the received count argc - 1, and has no other effect (in particular
the help and status bodies are not run). -/
theorem C8_fixed_arity_mismatch (argc : Nat) (argv : List (List Char))
    (h1 : 1 ≤ argc) (h2 : argc ≠ 1) :
    CmdPrintHelp argc argv = PrintNumArgError argc (argv.getD 0 []) 1 ∧
    CmdPrintStatus argc argv = PrintNumArgError argc (argv.getD 0 []) 1 ∧
    PrintNumArgError argc (argv.getD 0 []) 1 =
      [CEv.out "#Error: ", CEv.outCStr (argv.getD 0 []), CEv.out " requires ", CEv.out "0",
        CEv.out " argument", CEv.out "s", CEv.out ". Received ",
        CEv.out (toString (argc - 1)), CEv.out "."] ∧
    CEv.printHelpBody ∉ CmdPrintHelp argc argv ∧
    CEv.printStatusBody ∉ CmdPrintStatus argc argv := by
  have hh : CmdPrintHelp argc argv = PrintNumArgError argc (argv.getD 0 []) 1 := by
    unfold CmdPrintHelp
    rw [if_pos h2]
  have hs : CmdPrintStatus argc argv = PrintNumArgError argc (argv.getD 0 []) 1 := by
    unfold CmdPrintStatus
    rw [if_pos h2]
  have hp : PrintNumArgError argc (argv.getD 0 []) 1 =
      [CEv.out "#Error: ", CEv.outCStr (argv.getD 0 []), CEv.out " requires ", CEv.out "0",
        CEv.out " argument", CEv.out "s", CEv.out ". Received ",
        CEv.out (toString (argc - 1)), CEv.out "."] := rfl
  refine ⟨hh, hs, hp, ?_, ?_⟩
  · rw [hh, hp]
    simp
  · rw [hs, hp]
    simp

/-- C8 (witness): the arity-guard theorem evaluated at argument count 3
with command name help. -/
theorem C8_witness :
    ((1 : Nat) ≤ 3 ∧ (3 : Nat) ≠ 1) ∧
    (CmdPrintHelp 3 [['h', 'e', 'l', 'p'], ['x'], ['y']] =
        PrintNumArgError 3 ['h', 'e', 'l', 'p'] 1 ∧
      CmdPrintStatus 3 [['h', 'e', 'l', 'p'], ['x'], ['y']] =
        PrintNumArgError 3 ['h', 'e', 'l', 'p'] 1 ∧
      PrintNumArgError 3 ['h', 'e', 'l', 'p'] 1 =
        [CEv.out "#Error: ", CEv.outCStr ['h', 'e', 'l', 'p'], CEv.out " requires ",
          CEv.out "0", CEv.out " argument", CEv.out "s", CEv.out ". Received ",
          CEv.out "2", CEv.out "."] ∧
      CEv.printHelpBody ∉ CmdPrintHelp 3 [['h', 'e', 'l', 'p'], ['x'], ['y']] ∧
      CEv.printStatusBody ∉ CmdPrintStatus 3 [['h', 'e', 'l', 'p'], ['x'], ['y']]) :=
  ⟨⟨by decide, by decide⟩,
    C8_fixed_arity_mismatch 3 [['h', 'e', 'l', 'p'], ['x'], ['y']] (by decide) (by decide)⟩

-- ===== Claim C10: FoxCopy and CallCopy bounds =====

/-- C10: on a source whose length is at least fox_len (here fox_len 4 and
the four-character source ABCD), the copy loop of FoxCopy writes
destination index fox_len itself, one past the claimed valid range 0 to
fox_len - 1; CallCopy behaves identically; the final terminator write at
index fox_len - 1 does happen as claimed. -/
theorem C10_copy_overrun :
    (4 ∈ FoxCopyWrites 4 ['A', 'B', 'C', 'D'] ∧
      ∃ j ∈ FoxCopyWrites 4 ['A', 'B', 'C', 'D'], 4 - 1 < j) ∧
    (4 ∈ CallCopyWrites 4 ['S', 'A', '5', 'B'] ∧
      ∃ j ∈ CallCopyWrites 4 ['S', 'A', '5', 'B'], 4 - 1 < j) ∧
    (FoxCopy 4 ['A', 'B', 'C', 'D'] (List.replicate 4 'x')).getD (4 - 1) ' ' = chNUL ∧
    (CallCopy 4 ['S', 'A', '5', 'B'] (List.replicate 4 'x')).getD (4 - 1) ' ' = chNUL :=
  ⟨⟨by decide, 4, by decide, by decide⟩, ⟨by decide, 4, by decide, by decide⟩,
    by decide, by decide⟩

/-- C6 (witness): the rejection theorem evaluated at the concrete
collaborator state with amplitude 1. -/
theorem C6_witness :
    CmdAmpl 2 [['a', 'm', 'p', 'l'], ['2', '.', '5']] ⟨1⟩ =
      (⟨1⟩, [CEv.out "Invalid amplitude value"]) ∧
    Cmd.parse (Cmd.add [] ['a', 'm', 'p', 'l'] 7) ['a', 'm', 'p', 'l', ' ', '2', '.', '5'] =
      Except.ok [PEvent.call 7 2 [['a', 'm', 'p', 'l'], ['2', '.', '5']], PEvent.prompt] ∧
    (∀ v, CEv.setAmplitude v ∉ (CmdAmpl 2 [['a', 'm', 'p', 'l'], ['2', '.', '5']] ⟨1⟩).2) ∧
    CEv.applySettings ∉ (CmdAmpl 2 [['a', 'm', 'p', 'l'], ['2', '.', '5']] ⟨1⟩).2 :=
  C6_ampl_out_of_range_rejected ⟨1⟩

/-- C7 (witness): the in-range theorem evaluated at the concrete
collaborator state with amplitude 1. -/
theorem C7_witness :
    CmdAmpl 2 [['a', 'm', 'p', 'l'], ['1', '.', '5']] ⟨1⟩ =
      (⟨3 / 2⟩, [CEv.setAmplitude (3 / 2), CEv.applySettings]) ∧
    Cmd.parse (Cmd.add [] ['a', 'm', 'p', 'l'] 7) ['a', 'm', 'p', 'l', ' ', '1', '.', '5'] =
      Except.ok [PEvent.call 7 2 [['a', 'm', 'p', 'l'], ['1', '.', '5']], PEvent.prompt] ∧
    (CmdAmpl 2 [['a', 'm', 'p', 'l'], ['1', '.', '5']] ⟨1⟩).2.count CEv.applySettings = 1 :=
  C7_ampl_in_range_applied ⟨1⟩
